import Mathlib

/-!
Shallow embedding of the `review` molecular viewer (`src/main.rs`).

Modelling conventions:
* Rust `f32` values are modelled as exact rationals (`ℚ`); the decimal
  syntax accepted by `str::parse::<f32>` is parsed into a `ℚ` value
  (IEEE rounding is not modelled, nor are the special spellings
  `inf`/`infinity`/`nan`, which have no rational counterpart).
* The input file is modelled as its list of lines (Rust `str::lines`).
* Panics (`expect`/`unwrap`) and `Err` returns are both modelled as
  `Except.error` with the error kind the source names at that point.
* `usize` indices are modelled as `ℕ`; the `u8` element id stays below
  13 so it is modelled as `ℕ` with no wraparound.
-/

/-- Model of Rust `char::is_ascii_whitespace`: space, tab, newline,
form feed, carriage return. -/
def isAsciiWhitespace (c : Char) : Bool :=
  c = ' ' || c = '\t' || c = '\n' || c = Char.ofNat 12 || c = '\r'

/-- Accumulator-based worker for `splitAsciiWhitespace`: `acc` holds the
current token, reversed. -/
def splitAux : List Char → List Char → List (List Char)
  | [], acc => if acc = [] then [] else [acc.reverse]
  | c :: cs, acc =>
    if isAsciiWhitespace c then
      if acc = [] then splitAux cs [] else acc.reverse :: splitAux cs []
    else splitAux cs (c :: acc)

/-- Model of Rust `str::split_ascii_whitespace`: the maximal runs of
non-whitespace characters, in order, with no empty tokens. -/
def splitAsciiWhitespace (s : String) : List String :=
  (splitAux s.toList []).map fun cs => String.mk cs

/-- Decimal digit test, Rust `char::is_ascii_digit`. -/
def isAsciiDigit (c : Char) : Bool :=
  '0' ≤ c && c ≤ '9'

/-- Numeric value of a decimal digit character. -/
def digitVal (c : Char) : ℕ := c.toNat - '0'.toNat

/-- Consume a leading run of decimal digits, returning (value, number of
digits consumed, remaining characters). -/
def takeDigits : List Char → ℕ × ℕ × List Char
  | [] => (0, 0, [])
  | c :: cs =>
    if isAsciiDigit c then
      let (v, n, rest) := takeDigits cs
      (digitVal c * 10 ^ n + v, n + 1, rest)
    else (0, 0, c :: cs)

/-- Model of Rust `str::parse::<f32>` on its decimal grammar,
producing the exact rational value: optional sign, digits with an
optional fractional part (at least one digit overall), and an optional
exponent.  The special spellings `inf`/`infinity`/`nan` are not
modelled (no rational value); no claim depends on them. -/
def parseF (s : String) : Option ℚ :=
  let cs := s.toList
  let (sign, cs₁) : ℚ × List Char :=
    match cs with
    | '+' :: r => (1, r)
    | '-' :: r => (-1, r)
    | r => (1, r)
  let (ip, ic, cs₂) := takeDigits cs₁
  let (fp, fc, cs₃) : ℕ × ℕ × List Char :=
    match cs₂ with
    | '.' :: r => takeDigits r
    | r => (0, 0, r)
  if ic + fc = 0 then none
  else
    let mant : ℚ := sign * ((ip : ℚ) + (fp : ℚ) / 10 ^ fc)
    match cs₃ with
    | [] => some mant
    | 'e' :: r | 'E' :: r =>
      let (esign, r₁) : ℤ × List Char :=
        match r with
        | '+' :: r' => (1, r')
        | '-' :: r' => (-1, r')
        | r' => (1, r')
      let (ev, en, r₂) := takeDigits r₁
      if en = 0 ∨ r₂ ≠ [] then none
      else some (mant * (10 : ℚ) ^ (esign * (ev : ℤ)))
    | _ => none

/-- The fixed element-symbol table `SYMS` of the source. -/
def SYMS : List String :=
  ["X", "H", "He", "Li", "Be", "B", "C", "N", "O", "F", "Ne", "Na", "Mg"]

/-- Error taxonomy of the load phase (spec §7).  In the source,
`FormatError` is the `Err("invalid line length for Atom")` return,
`UnknownElementError` is the `expect("unknown atom")` panic, and
`NumberFormatError` is the `?` on `str::parse` failures; all three
abort the load. -/
inductive ParseError where
  | FormatError
  | UnknownElementError
  | NumberFormatError
deriving DecidableEq, Repr

/-- The `Atom` struct: three coordinates and the element id `w`. -/
structure Atom where
  x : ℚ
  y : ℚ
  z : ℚ
  w : ℕ
deriving DecidableEq, Repr

/-- The `FromStr` impl for `Atom`: split the line on ASCII whitespace,
require exactly 4 tokens (else `FormatError`), resolve token 0 in
`SYMS` by first exact match (else the `unknown atom` panic, modelled
as `UnknownElementError`), then parse tokens 1–3 as floats in order
(failure gives `NumberFormatError`).  Field order in the Rust struct
literal evaluates `w` before the coordinates, so an unknown symbol
wins over a bad number. -/
def Atom.from_str (s : String) : Except ParseError Atom :=
  match splitAsciiWhitespace s with
  | [t0, t1, t2, t3] =>
    match SYMS.findIdx? (fun u => u == t0) with
    | none => .error .UnknownElementError
    | some w =>
      match parseF t1, parseF t2, parseF t3 with
      | some x, some y, some z => .ok ⟨x, y, z, w⟩
      | _, _, _ => .error .NumberFormatError
  | _ => .error .FormatError

/-- Parse every line as an atom, in order, stopping at the first
failure (the `unwrap` in `load_xyz` makes any failure fatal). -/
def parseLines : List String → Except ParseError (List Atom)
  | [] => .ok []
  | l :: ls =>
    match Atom.from_str l with
    | .error e => .error e
    | .ok a =>
      match parseLines ls with
      | .error e => .error e
      | .ok as => .ok (a :: as)

/-- The line loop of `load_xyz`: if the first line has byte length
exactly 1 it is skipped together with the following comment line
(`lines.next()`), and every remaining line is parsed as an atom. -/
def loadAtoms : List String → Except ParseError (List Atom)
  | [] => .ok []
  | l :: rest =>
    if l.utf8ByteSize = 1 then parseLines (rest.drop 1)
    else parseLines (l :: rest)

/-- Squared Euclidean distance between two atoms, the
`(xi-xj).powi(2) + (yi-yj).powi(2) + (zi-zj).powi(2)` of the source
before the `sqrt`. -/
def dist2 (a b : Atom) : ℚ :=
  (a.x - b.x) ^ 2 + (a.y - b.y) ^ 2 + (a.z - b.z) ^ 2

/-- The bonding test of `load_xyz` for indices `i`, `j`: both in range
and squared distance `< 9`.  The source computes `dist.sqrt() < 3.0`;
for a nonnegative radicand this is equivalent to the squared distance
being `< 9` (see `bondedDist_iff_dist2`). -/
def bondPred (atoms : List Atom) (i j : ℕ) : Bool :=
  match atoms[i]?, atoms[j]? with
  | some a, some b => decide (dist2 a b < 9)
  | _, _ => false

/-- The double loop of `load_xyz`: `for i in 0..n`, `for j in i+1..n`,
push `(i, j)` when the distance test passes. -/
def inferBonds (atoms : List Atom) : List (ℕ × ℕ) :=
  (List.range atoms.length).flatMap fun i =>
    ((List.range' (i + 1) (atoms.length - (i + 1))).filter
      (fun j => bondPred atoms i j)).map fun j => (i, j)

/-- The `Molecule` struct: atom sequence plus inferred bond list. -/
structure Molecule where
  atoms : List Atom
  bonds : List (ℕ × ℕ)
deriving DecidableEq, Repr

/-- `load_xyz` on the file's lines: parse the atoms (any failure is
fatal), then infer the bonds. -/
def loadXyz (content : List String) : Except ParseError Molecule :=
  match loadAtoms content with
  | .error e => .error e
  | .ok atoms => .ok ⟨atoms, inferBonds atoms⟩

instance {ε α : Type} [DecidableEq ε] [DecidableEq α] :
    DecidableEq (Except ε α) := fun x y =>
  match x, y with
  | .ok a, .ok b =>
    if h : a = b then .isTrue (by rw [h]) else .isFalse (by simp [h])
  | .error a, .error b =>
    if h : a = b then .isTrue (by rw [h]) else .isFalse (by simp [h])
  | .ok _, .error _ => .isFalse (by simp)
  | .error _, .ok _ => .isFalse (by simp)

/-- The Euclidean-distance bonding condition as stated in the spec:
the real square root of the squared distance is strictly below 3. -/
def bondedDist (a b : Atom) : Prop :=
  Real.sqrt ((dist2 a b : ℚ) : ℝ) < 3

/-- Events observable at the rendering collaborator's call surface,
one constructor per call the frame loop makes (plus
`computeElapsedTime`, which the spec's frame contract mentions but the
source never performs). -/
inductive RenderEvent where
  | computeElapsedTime
  | updateCamera
  | beginDrawing
  | clearBackground
  | beginMode3d
  | drawSphere (a : Atom)
  | drawCylinder (b : ℕ × ℕ)
  | endMode3d
  | endDrawing
deriving DecidableEq, Repr

/-- The body of the `while !win.should_close()` loop of `main`, as the
trace of rendering-collaborator calls of one iteration, in source
order: begin drawing, clear background, begin 3D mode, update the
camera (inside 3D mode), one sphere per atom, one cylinder per bond,
end 3D mode, end drawing. -/
def frameEvents (mol : Molecule) : List RenderEvent :=
  [.beginDrawing, .clearBackground, .beginMode3d, .updateCamera]
    ++ mol.atoms.map .drawSphere
    ++ mol.bonds.map .drawCylinder
    ++ [.endMode3d, .endDrawing]

/-- Modelled from the spec: the iteration order claimed in §4.4 —
compute elapsed time, update the camera, begin a frame, clear, enter
3D mode, spheres, cylinders, exit 3D mode, end the frame.  Written
from the spec's words, to be compared with `frameEvents`. -/
def specFrameEvents (mol : Molecule) : List RenderEvent :=
  [.computeElapsedTime, .updateCamera, .beginDrawing, .clearBackground,
      .beginMode3d]
    ++ mol.atoms.map .drawSphere
    ++ mol.bonds.map .drawCylinder
    ++ [.endMode3d, .endDrawing]

/-- A 3D vector with exact rational components (model of `Vector3`). -/
structure Vec3 where
  x : ℚ
  y : ℚ
  z : ℚ
deriving DecidableEq, Repr

/-- The `Camera3D` pose: position, target, up vector, vertical
field of view, projection mode. -/
structure Camera3D where
  position : Vec3
  target : Vec3
  up : Vec3
  fovy : ℚ
  projection : ℤ
deriving DecidableEq, Repr

/-- Modelled from the spec: the direct-translation camera mode of
§4.3 is absent from `src` (the source's loop only invokes the
delegated orbit/third-person `update_camera`), so it is modelled from
the spec's words: each of the four directional signals translates the
camera position along a fixed world axis by `speed * dt`; the
forward axis is `+z` (the startup pose looks from `-z` toward the
origin); target and up are left unchanged. -/
def directTranslationUpdate (cam : Camera3D)
    (forward back strafeLeft strafeRight : Bool) (dt speed : ℚ) :
    Camera3D :=
  let dz : ℚ :=
    (if forward then speed * dt else 0) - (if back then speed * dt else 0)
  let dx : ℚ :=
    (if strafeRight then speed * dt else 0)
      - (if strafeLeft then speed * dt else 0)
  { cam with
      position :=
        ⟨cam.position.x + dx, cam.position.y, cam.position.z + dz⟩ }

/-! ### Helper lemmas -/

theorem bondedDist_iff_dist2 (a b : Atom) : bondedDist a b ↔ dist2 a b < 9 := by
  unfold bondedDist
  rw [show (3 : ℝ) = Real.sqrt 9 by
        rw [show (9 : ℝ) = 3 ^ 2 by norm_num, Real.sqrt_sq (by norm_num)]]
  rw [Real.sqrt_lt_sqrt_iff_of_pos (by norm_num)]
  exact_mod_cast Iff.rfl

theorem mem_range'_iff {s n m : ℕ} :
    m ∈ List.range' s n ↔ s ≤ m ∧ m < s + n := by
  rw [List.mem_range']
  constructor
  · rintro ⟨i, hi, rfl⟩; omega
  · intro h; exact ⟨m - s, by omega, by omega⟩

theorem pairwise_lt_range' : ∀ s n : ℕ, (List.range' s n).Pairwise (· < ·)
  | _, 0 => List.Pairwise.nil
  | s, n + 1 => by
    rw [List.range'_succ]
    exact List.Pairwise.cons
      (fun m hm => (mem_range'_iff.1 hm).1.trans_lt' (by omega))
      (pairwise_lt_range' (s + 1) n)

theorem bondPred_iff {atoms : List Atom} {i j : ℕ} :
    bondPred atoms i j = true ↔
      ∃ a b, atoms[i]? = some a ∧ atoms[j]? = some b ∧ dist2 a b < 9 := by
  unfold bondPred
  rcases h1 : atoms[i]? with _ | a <;> rcases h2 : atoms[j]? with _ | b <;>
    simp

theorem mem_inferBonds {atoms : List Atom} {p q : ℕ} :
    (p, q) ∈ inferBonds atoms ↔
      p < q ∧ q < atoms.length ∧ bondPred atoms p q = true := by
  unfold inferBonds
  simp only [List.mem_flatMap, List.mem_map, List.mem_filter,
    List.mem_range]
  constructor
  · rintro ⟨i, hi, j, ⟨hjr, hbp⟩, hij⟩
    obtain ⟨rfl, rfl⟩ : i = p ∧ j = q := by
      exact ⟨congrArg Prod.fst hij, congrArg Prod.snd hij⟩
    have hq := mem_range'_iff.1 hjr
    exact ⟨by omega, by omega, hbp⟩
  · rintro ⟨hpq, hql, hbp⟩
    exact ⟨p, by omega, q, ⟨mem_range'_iff.2 (by omega), hbp⟩, rfl⟩

theorem inferBonds_pairwise (atoms : List Atom) :
    (inferBonds atoms).Pairwise
      (fun p q => p.1 < q.1 ∨ (p.1 = q.1 ∧ p.2 < q.2)) := by
  unfold inferBonds
  rw [List.pairwise_flatMap]
  constructor
  · intro i _
    rw [List.pairwise_map]
    exact ((pairwise_lt_range' _ _).filter _).imp fun h => Or.inr ⟨rfl, h⟩
  · have hr : (List.range atoms.length).Pairwise (· < ·) := by
      rw [List.range_eq_range']
      exact pairwise_lt_range' 0 atoms.length
    refine hr.imp fun {a b} hab => ?_
    intro x hx y hy
    simp only [List.mem_map] at hx hy
    obtain ⟨_, _, rfl⟩ := hx
    obtain ⟨_, _, rfl⟩ := hy
    exact Or.inl hab

theorem inferBonds_nodup (atoms : List Atom) :
    (inferBonds atoms).Nodup :=
  (inferBonds_pairwise atoms).imp fun h => by
    rintro rfl
    rcases h with h | ⟨_, h⟩ <;> exact absurd h (lt_irrefl _)

theorem from_str_ok_iff {s : String} {a : Atom} :
    Atom.from_str s = .ok a ↔
      ∃ t0 t1 t2 t3, splitAsciiWhitespace s = [t0, t1, t2, t3] ∧
        SYMS.findIdx? (fun u => u == t0) = some a.w ∧
        parseF t1 = some a.x ∧ parseF t2 = some a.y ∧
        parseF t3 = some a.z := by
  obtain ⟨ax, ay, az, aw⟩ := a
  unfold Atom.from_str
  split
  case h_2 ls hne =>
    constructor
    · intro h; cases h
    · rintro ⟨t0, t1, t2, t3, hs, -⟩
      exact absurd hs (hne t0 t1 t2 t3)
  case h_1 t0 t1 t2 t3 hs =>
    constructor
    · intro h
      split at h
      · cases h
      case h_2 w hw =>
        split at h
        case h_1 x y z hx hy hz =>
          cases h
          exact ⟨t0, t1, t2, t3, hs, hw, hx, hy, hz⟩
        · cases h
    · rintro ⟨u0, u1, u2, u3, hs', hw, hx, hy, hz⟩
      rw [hs] at hs'
      obtain ⟨rfl, rfl, rfl, rfl⟩ :
          u0 = t0 ∧ u1 = t1 ∧ u2 = t2 ∧ u3 = t3 := by
        simpa using hs'.symm
      rw [hw, hx, hy, hz]

theorem parseLines_ok {ls : List String} {as : List Atom}
    (h : parseLines ls = .ok as) :
    as.length = ls.length ∧
      ∀ (k : ℕ) (l : String) (a : Atom), ls[k]? = some l →
        as[k]? = some a → Atom.from_str l = .ok a := by
  induction ls generalizing as with
  | nil =>
    unfold parseLines at h
    cases h
    exact ⟨rfl, fun k l a hl => by cases hl⟩
  | cons l ls ih =>
    unfold parseLines at h
    split at h
    · cases h
    case h_2 a ha =>
      split at h
      · cases h
      case h_2 as' has =>
        cases h
        obtain ⟨hlen, htail⟩ := ih has
        refine ⟨by simpa using hlen, fun k l' a' hl' ha' => ?_⟩
        cases k with
        | zero =>
          simp only [List.getElem?_cons_zero, Option.some.injEq] at hl' ha'
          rw [← hl', ← ha']
          exact ha
        | succ k =>
          simp only [List.getElem?_cons_succ] at hl' ha'
          exact htail k l' a' hl' ha'

theorem inferBonds_two (a b : Atom) :
    inferBonds [a, b] = if dist2 a b < 9 then [(0, 1)] else [] := by
  have hb : bondPred [a, b] 0 1 = decide (dist2 a b < 9) := rfl
  unfold inferBonds
  rw [show (List.range (List.length [a, b])) = [0, 1] from rfl]
  simp only [List.flatMap_cons, List.flatMap_nil]
  rw [show (List.range' 1 (List.length [a, b] - 1)) = [1] from rfl,
    show (List.range' 2 (List.length [a, b] - 2)) = [] from rfl]
  simp only [List.filter, hb, List.filter_nil, List.map_nil,
    List.append_nil, List.nil_append]
  by_cases h : dist2 a b < 9
  · simp [h]
  · simp [h]

/-! ### Claim theorems -/

/-- C1: bond inference is exactly the threshold rule — for every atom
sequence and indices `i < j`, the bond `(i, j)` is emitted iff the
Euclidean distance between atoms `i` and `j` is strictly below 3.0;
concretely, atoms at `(0,0,0)` and `(1.5,0,0)` yield exactly the bond
`(0, 1)`, and atoms at `(0,0,0)` and `(5,0,0)` yield no bonds. -/
theorem bond_inference_threshold_rule :
    (∀ (atoms : List Atom) (i j : ℕ),
        (i, j) ∈ inferBonds atoms ↔
          i < j ∧ ∃ a b, atoms[i]? = some a ∧ atoms[j]? = some b ∧
            bondedDist a b) ∧
      inferBonds [⟨0, 0, 0, 1⟩, ⟨3/2, 0, 0, 1⟩] = [(0, 1)] ∧
      inferBonds [⟨0, 0, 0, 1⟩, ⟨5, 0, 0, 1⟩] = [] := by
  refine ⟨fun atoms i j => ?_, ?_, ?_⟩
  · rw [mem_inferBonds, bondPred_iff]
    constructor
    · rintro ⟨hij, hjl, a, b, ha, hb, hd⟩
      exact ⟨hij, a, b, ha, hb, (bondedDist_iff_dist2 a b).2 hd⟩
    · rintro ⟨hij, a, b, ha, hb, hd⟩
      obtain ⟨hjl, -⟩ := List.getElem?_eq_some_iff.1 hb
      exact ⟨hij, hjl, a, b, ha, hb, (bondedDist_iff_dist2 a b).1 hd⟩
  · rw [inferBonds_two, if_pos (by norm_num [dist2])]
  · rw [inferBonds_two, if_neg (by norm_num [dist2])]

/-- C7: bond inference is deterministic and its output order is the
visit order of the double loop — strictly ascending in `i`, then in
`j` — and identical inputs give identical ordered output. -/
theorem bond_inference_deterministic_order :
    (∀ atoms : List Atom,
        (inferBonds atoms).Pairwise
          (fun p q => p.1 < q.1 ∨ (p.1 = q.1 ∧ p.2 < q.2))) ∧
      ∀ atoms atoms' : List Atom, atoms = atoms' →
        inferBonds atoms = inferBonds atoms' :=
  ⟨inferBonds_pairwise, fun _ _ h => congrArg inferBonds h⟩

/-- Witness for C7 at a concrete atom list. -/
theorem bond_inference_deterministic_order_witness :
    inferBonds [(⟨0, 0, 0, 1⟩ : Atom)] = inferBonds [(⟨0, 0, 0, 1⟩ : Atom)] :=
  bond_inference_deterministic_order.2 _ _ rfl

/-- C8: every bond of a molecule constructed by `load_xyz` has `i < j`,
the bond list has no duplicate pairs, and both indices are within
`[0, atom_count)`. -/
theorem molecule_bond_invariants :
    ∀ (content : List String) (mol : Molecule),
      loadXyz content = .ok mol →
        mol.bonds.Nodup ∧
          ∀ p ∈ mol.bonds, p.1 < p.2 ∧ p.2 < mol.atoms.length := by
  intro content mol h
  unfold loadXyz at h
  split at h
  · cases h
  case h_2 atoms ha =>
    cases h
    refine ⟨inferBonds_nodup atoms, fun p hp => ?_⟩
    obtain ⟨i, j⟩ := p
    obtain ⟨h1, h2, -⟩ := mem_inferBonds.1 hp
    exact ⟨h1, h2⟩

/-- Witness for C8 on a two-atom molecule with one bond. -/
theorem molecule_bond_invariants_witness :
    (Molecule.mk [⟨0, 0, 0, 1⟩, ⟨1, 0, 0, 1⟩] [(0, 1)]).bonds.Nodup ∧
      ∀ p ∈ (Molecule.mk [⟨0, 0, 0, 1⟩, ⟨1, 0, 0, 1⟩] [(0, 1)]).bonds,
        p.1 < p.2 ∧
          p.2 < (Molecule.mk [⟨0, 0, 0, 1⟩, ⟨1, 0, 0, 1⟩]
            [(0, 1)]).atoms.length :=
  molecule_bond_invariants ["H 0 0 0", "H 1 0 0"] _
    (by with_unfolding_all decide)

/-- C10: loading an empty input file (zero lines) succeeds and yields
the molecule with no atoms and no bonds. -/
theorem empty_file_loads_empty_molecule :
    loadXyz [] = .ok ⟨[], []⟩ := rfl

/-- C4: in the (spec-modelled) direct-translation camera mode, one
update from position `(0,0,-5)` with the forward signal active,
`dt = 0.1` and speed `2.0` gives position `(0,0,-4.8)` with target and
up unchanged. -/
theorem direct_translation_forward_update :
    ∀ (target up : Vec3) (fovy : ℚ) (proj : ℤ),
      directTranslationUpdate ⟨⟨0, 0, -5⟩, target, up, fovy, proj⟩
          true false false false (1/10) 2 =
        ⟨⟨0, 0, -4.8⟩, target, up, fovy, proj⟩ := by
  intro target up fovy proj
  unfold directTranslationUpdate
  simp only [if_true, if_false, Camera3D.mk.injEq, Vec3.mk.injEq]
  norm_num

/-- C2: for a well-formed input, parsing yields exactly one Atom per
data line, in file order, with the element id equal to the symbol's
position in `SYMS` and the coordinates equal to the three coordinate
tokens parsed as floats, in token order. -/
theorem parse_wellformed_correctness :
    ∀ (ls : List String) (as : List Atom), parseLines ls = .ok as →
      as.length = ls.length ∧
        ∀ (k : ℕ) (l : String) (a : Atom), ls[k]? = some l →
          as[k]? = some a →
          ∃ t0 t1 t2 t3, splitAsciiWhitespace l = [t0, t1, t2, t3] ∧
            SYMS.findIdx? (fun u => u == t0) = some a.w ∧
            parseF t1 = some a.x ∧ parseF t2 = some a.y ∧
            parseF t3 = some a.z := by
  intro ls as h
  obtain ⟨hlen, hat⟩ := parseLines_ok h
  exact ⟨hlen, fun k l a hl ha => from_str_ok_iff.1 (hat k l a hl ha)⟩

/-- Witness for C2 on the one-line file `H 0 0 0`. -/
theorem parse_wellformed_correctness_witness :
    ([(⟨0, 0, 0, 1⟩ : Atom)]).length = (["H 0 0 0"]).length :=
  (parse_wellformed_correctness ["H 0 0 0"] [⟨0, 0, 0, 1⟩]
    (by with_unfolding_all decide)).1

/-- C5: a data line without exactly 4 whitespace-separated tokens
fails with `FormatError`, an unknown element symbol fails with
`UnknownElementError`, a non-numeric coordinate token fails with
`NumberFormatError`, and in each case the parser returns the error,
not an atom; concretely on `H 0 0`, `Zz 0 0 0` and `H abc 0 0`. -/
theorem parse_error_taxonomy :
    (∀ s : String, (splitAsciiWhitespace s).length ≠ 4 →
        Atom.from_str s = .error .FormatError) ∧
      (∀ (s t0 t1 t2 t3 : String),
        splitAsciiWhitespace s = [t0, t1, t2, t3] →
        SYMS.findIdx? (fun u => u == t0) = none →
        Atom.from_str s = .error .UnknownElementError) ∧
      (∀ (s t0 t1 t2 t3 : String) (w : ℕ),
        splitAsciiWhitespace s = [t0, t1, t2, t3] →
        SYMS.findIdx? (fun u => u == t0) = some w →
        (parseF t1 = none ∨ parseF t2 = none ∨ parseF t3 = none) →
        Atom.from_str s = .error .NumberFormatError) ∧
      Atom.from_str ("H 0 0") = .error .FormatError ∧
      Atom.from_str ("Zz 0 0 0") = .error .UnknownElementError ∧
      Atom.from_str ("H abc 0 0") = .error .NumberFormatError := by
  refine ⟨fun s hlen => ?_, fun s t0 t1 t2 t3 hs hw => ?_,
    fun s t0 t1 t2 t3 w hs hw hp => ?_, rfl, rfl, rfl⟩
  · unfold Atom.from_str
    split
    case h_1 u0 u1 u2 u3 hs => rw [hs] at hlen; simp at hlen
    · rfl
  · unfold Atom.from_str
    split
    case h_1 u0 u1 u2 u3 hs' =>
      rw [hs] at hs'
      obtain ⟨rfl, rfl, rfl, rfl⟩ :
          u0 = t0 ∧ u1 = t1 ∧ u2 = t2 ∧ u3 = t3 := by simpa using hs'.symm
      rw [hw]
    case h_2 hne => exact absurd hs (hne t0 t1 t2 t3)
  · unfold Atom.from_str
    split
    case h_1 u0 u1 u2 u3 hs' =>
      rw [hs] at hs'
      obtain ⟨rfl, rfl, rfl, rfl⟩ :
          u0 = t0 ∧ u1 = t1 ∧ u2 = t2 ∧ u3 = t3 := by simpa using hs'.symm
      rw [hw]
      rcases h1 : parseF u1 with _ | x
      · rfl
      rcases h2 : parseF u2 with _ | y
      · rfl
      rcases h3 : parseF u3 with _ | z
      · rfl
      rcases hp with hp | hp | hp <;> simp_all
    case h_2 hne => exact absurd hs (hne t0 t1 t2 t3)

/-- Witness for C5: the universal parts applied to the three concrete
rejection inputs of the spec. -/
theorem parse_error_taxonomy_witness :
    Atom.from_str ("O 1 2") = .error .FormatError ∧
      Atom.from_str ("Qq 1 2 3") = .error .UnknownElementError ∧
      Atom.from_str ("O xyz 2 3") = .error .NumberFormatError :=
  ⟨parse_error_taxonomy.1 ("O 1 2") (by decide),
    parse_error_taxonomy.2.1 ("Qq 1 2 3") ("Qq") ("1") ("2") ("3") (by decide)
      (by decide),
    parse_error_taxonomy.2.2.1 ("O xyz 2 3") ("O") ("xyz") ("2") ("3") 8 (by decide)
      (by decide) (Or.inl (by decide))⟩

/-- C6 counterexample: `[1, c, 1, x, H 0 0 0]` starts with a
one-character line followed by a comment line, yet loading it fails
(the third line `1` is parsed as an atom line) while loading the file
with the two header lines removed succeeds — the header-skip equation
the claim states does not hold. -/
theorem header_skip_counterexample :
    ("1").utf8ByteSize = 1 ∧
      loadAtoms ["1", "c", "1", "x", "H 0 0 0"] ≠
        loadAtoms ["1", "x", "H 0 0 0"] := by
  constructor
  · rfl
  · with_unfolding_all decide

/-- C6 amended: a file beginning with a one-character line followed by
a comment line loads to the same atom sequence as the file with those
two lines removed, provided the first remaining line is not itself a
one-character line (otherwise the truncated file skips its own first
two lines). -/
theorem header_skip_amended :
    ∀ (c comment : String) (rest : List String),
      c.utf8ByteSize = 1 →
      (∀ l, rest.head? = some l → l.utf8ByteSize ≠ 1) →
      loadAtoms (c :: comment :: rest) = loadAtoms rest := by
  intro c comment rest hc hrest
  cases rest with
  | nil => simp [loadAtoms, hc, parseLines]
  | cons l t => simp [loadAtoms, hc, hrest l rfl]

/-- Witness for C6 (amended) on a concrete headered file. -/
theorem header_skip_amended_witness :
    loadAtoms ["1", "some comment", "H 0 0 0"] = loadAtoms ["H 0 0 0"] :=
  header_skip_amended ("1") ("some comment") ["H 0 0 0"] rfl
    (fun l hl => by
      simp only [List.head?_cons, Option.some.injEq] at hl
      rw [← hl]
      decide)

/-- C9: the header skip applies only to a one-character first line —
any longer first line is parsed as an atom line, and a multi-digit
atom-count first line such as `13` makes the load fail with the
invalid-line-length error (`FormatError`) instead of skipping a
header. -/
theorem long_first_line_not_header :
    (∀ (l : String) (rest : List String), 1 < l.utf8ByteSize →
        loadAtoms (l :: rest) = parseLines (l :: rest)) ∧
      ∀ rest : List String,
        loadAtoms ("13" :: rest) = .error .FormatError := by
  have hgen : ∀ (l : String) (rest : List String), 1 < l.utf8ByteSize →
      loadAtoms (l :: rest) = parseLines (l :: rest) := by
    intro l rest hl
    simp only [loadAtoms]
    rw [if_neg (by omega)]
  refine ⟨hgen, fun rest => ?_⟩
  rw [hgen ("13") rest (by decide)]
  simp only [parseLines]
  rw [show Atom.from_str ("13") = .error .FormatError from rfl]

/-- Witness for C9 at the file whose only line is `13`. -/
theorem long_first_line_not_header_witness :
    loadAtoms ["13"] = parseLines ["13"] ∧
      loadAtoms ["13"] = .error .FormatError :=
  ⟨long_first_line_not_header.1 ("13") [] (by decide),
    long_first_line_not_header.2 []⟩

/-- C3 counterexample: already on the empty molecule, the trace of one
frame-loop iteration differs from the order the claim states — the
source begins the frame, clears, and enters 3D mode before updating
the camera, and never computes an elapsed time. -/
theorem frame_order_counterexample :
    frameEvents ⟨[], []⟩ ≠ specFrameEvents ⟨[], []⟩ := by decide

/-- C3 amended: every iteration of the frame loop performs, strictly
in this order: begin a frame, clear to the fixed background color,
enter 3D mode with the current pose, update the camera pose
(delegated third-person mode), draw one sphere per atom in order, draw
one cylinder per bond in order, exit 3D mode, end the frame; no
explicit elapsed-time computation occurs in the loop body. -/
theorem frame_order_amended :
    ∀ mol : Molecule,
      frameEvents mol =
        [.beginDrawing, .clearBackground, .beginMode3d, .updateCamera]
          ++ mol.atoms.map RenderEvent.drawSphere
          ++ mol.bonds.map RenderEvent.drawCylinder
          ++ [.endMode3d, .endDrawing] ∧
        (frameEvents mol).count RenderEvent.computeElapsedTime = 0 := by
  intro mol
  refine ⟨rfl, List.count_eq_zero.2 ?_⟩
  simp [frameEvents]
